import Mathlib

/-
  Verification of the rs6502 6502-emulator core against its specification.

  The CPU engine (`src/cpu/cpu.rs`) and the assembler semantic pass
  (`src/assembler/parser.rs`) are embedded shallowly below.  Machine
  integers are modelled as `Nat` with explicit `% 256` / `% 65536` at the
  points where the Rust `u8` / `u16` types force wrapping (release-mode
  wrapping semantics, which is also what the specification's "modulo 2^8 /
  2^16" invariants prescribe).  The repository modules that are not part of
  the given sources (opcode table, memory bus, registers, status flags,
  stack, assembler tokens) are modelled from the specification and are
  marked as such in their doc comments.
-/

namespace RS6502

/-- Modelled from the spec: the `AddressingMode` enum of the `opcodes`
module, which is not among the given sources (spec section 3); the
`Unknown` variant is referenced by `cpu.rs` itself. -/
inductive AddressingMode where
  | Unknown
  | Implied
  | Accumulator
  | Immediate
  | Relative
  | ZeroPage
  | ZeroPageX
  | ZeroPageY
  | Absolute
  | AbsoluteX
  | AbsoluteY
  | Indirect
  | IndirectX
  | IndirectY
deriving DecidableEq, BEq

/-- Modelled from the spec: the opcode descriptor of the `opcodes` module
(spec section 3): `{ code, mnemonic, mode, length }`. -/
structure OpCode where
  code : Nat
  mnemonic : String
  mode : AddressingMode
  length : Nat
deriving DecidableEq

/-- Modelled from the spec: the opcode table (spec sections 2.1 and 4.1),
whose module is not among the given sources.  The entries follow the
standard 6502 encoding the spec appeals to; the table here is partial,
holding the descriptors these theorems touch (including legal opcodes
whose mnemonics the executor does not implement, such as NOP and JMP).
Bytes outside this list are treated as illegal. -/
def opcodeList : List OpCode :=
  [ ⟨0x00, "BRK", AddressingMode.Implied, 1⟩
  , ⟨0x69, "ADC", AddressingMode.Immediate, 2⟩
  , ⟨0x65, "ADC", AddressingMode.ZeroPage, 2⟩
  , ⟨0x6D, "ADC", AddressingMode.Absolute, 3⟩
  , ⟨0x29, "AND", AddressingMode.Immediate, 2⟩
  , ⟨0x0A, "ASL", AddressingMode.Accumulator, 1⟩
  , ⟨0x90, "BCC", AddressingMode.Relative, 2⟩
  , ⟨0xB0, "BCS", AddressingMode.Relative, 2⟩
  , ⟨0xF0, "BEQ", AddressingMode.Relative, 2⟩
  , ⟨0xD0, "BNE", AddressingMode.Relative, 2⟩
  , ⟨0x30, "BMI", AddressingMode.Relative, 2⟩
  , ⟨0x10, "BPL", AddressingMode.Relative, 2⟩
  , ⟨0x24, "BIT", AddressingMode.ZeroPage, 2⟩
  , ⟨0xD8, "CLD", AddressingMode.Implied, 1⟩
  , ⟨0xF8, "SED", AddressingMode.Implied, 1⟩
  , ⟨0xA9, "LDA", AddressingMode.Immediate, 2⟩
  , ⟨0xA5, "LDA", AddressingMode.ZeroPage, 2⟩
  , ⟨0x8D, "STA", AddressingMode.Absolute, 3⟩
  , ⟨0x85, "STA", AddressingMode.ZeroPage, 2⟩
  , ⟨0xEA, "NOP", AddressingMode.Implied, 1⟩
  , ⟨0xAA, "TAX", AddressingMode.Implied, 1⟩
  , ⟨0x4C, "JMP", AddressingMode.Absolute, 3⟩
  , ⟨0x60, "RTS", AddressingMode.Implied, 1⟩
  , ⟨0xA2, "LDX", AddressingMode.Immediate, 2⟩ ]

/-- Modelled from the spec: `OpCode::from_raw_byte` -- `lookup_by_byte`
of spec section 4.1. -/
def from_raw_byte (b : Nat) : Option OpCode :=
  opcodeList.find? (fun o => o.code == b)

/-- Modelled from the spec: `OpCode::from_mnemonic_and_addressing_mode` --
`lookup_by_mnemonic_and_mode` of spec section 4.1. -/
def from_mnemonic_and_addressing_mode (m : String) (mode : AddressingMode) : Option OpCode :=
  opcodeList.find? (fun o => o.mnemonic == m && o.mode == mode)

/-- Memory is a flat byte store addressed by `Nat`. -/
def Mem : Type := Nat → Nat

/-- Modelled from the spec: `MemoryBus::read_byte` (spec section 4.2).
The two mods encode the `u16` address and `u8` cell types. -/
def read_byte (m : Mem) (addr : Nat) : Nat :=
  m (addr % 65536) % 256

/-- Modelled from the spec: `MemoryBus::write_byte` (spec section 4.2). -/
def write_byte (m : Mem) (addr : Nat) (v : Nat) : Mem :=
  fun a => if a = addr % 65536 then v % 256 else m a

/-- Modelled from the spec: `MemoryBus::read_u16` (spec section 4.2):
little-endian, high byte read wraps past 0xFFFF. -/
def read_u16 (m : Mem) (addr : Nat) : Nat :=
  read_byte m addr + 256 * read_byte m ((addr + 1) % 65536)

/-- Modelled from the spec: the register file (spec section 3). -/
structure Registers where
  A : Nat
  X : Nat
  Y : Nat
  PC : Nat
deriving DecidableEq

/-- Modelled from the spec: the status-flag record (spec section 3). -/
structure StatusFlags where
  carry : Bool
  zero : Bool
  interrupt_disabled : Bool
  decimal : Bool
  break_flag : Bool
  overflow : Bool
  sign : Bool
deriving DecidableEq

/-- Modelled from the spec: the `Stack` component holds the stack
pointer SP (spec sections 3 and 4.5); initial SP is 0xFF. -/
structure Stack where
  sp : Nat
deriving DecidableEq

/-- The `Cpu` of `cpu.rs`: memory bus, registers, flags, stack. -/
structure Cpu where
  memory : Mem
  registers : Registers
  flags : StatusFlags
  stack : Stack

/-- The `Operand` enum of `cpu.rs`. -/
inductive Operand where
  | Immediate (b : Nat)
  | Memory (addr : Nat)
  | Implied
deriving DecidableEq

/-- The `CpuError` enum (`cpu_error.rs` is not among the given sources;
the two constructors are those used by `cpu.rs` and spec section 7). -/
inductive CpuError where
  | unknown_opcode (pc byte : Nat)
  | code_segment_out_of_range (addr : Nat)
deriving DecidableEq

/-- `Cpu::new`: zeroed memory and registers, flags clear, SP = 0xFF
(initial values from spec section 3). -/
def Cpu.new : Cpu :=
  { memory := fun _ => 0
  , registers := { A := 0, X := 0, Y := 0, PC := 0 }
  , flags := { carry := false, zero := false, interrupt_disabled := false
             , decimal := false, break_flag := false, overflow := false, sign := false }
  , stack := { sp := 0xFF } }

/-- The write loop of `Cpu::load`: byte `x` of the slice goes to address
`(addr + x) mod 2^16` (the Rust `addr + x as u16` wrapping add). -/
def writeCode (m : Mem) (a : Nat) : List Nat → Mem
  | [] => m
  | b :: bs => writeCode (write_byte m a b) (a + 1) bs

/-- `Cpu::load`: with an explicit address, errors when
`addr + code.len() > 0xFFFF`; otherwise (and always for the default
address 0xC000) writes the slice and points PC at it. -/
def load (c : Cpu) (code : List Nat) (addr : Option Nat) : Except CpuError Cpu :=
  match addr with
  | some a =>
    if a + code.length > 0xFFFF then
      Except.error (CpuError.code_segment_out_of_range a)
    else
      Except.ok { c with memory := writeCode c.memory a code, registers.PC := a }
  | none =>
    Except.ok { c with memory := writeCode c.memory 0xC000 code, registers.PC := 0xC000 }

/-- `Cpu::get_operand_from_opcode`.  The `Unknown` arm panics in the
source (`unreachable!`); no table entry carries mode `Unknown`, and the
arm is rendered as `Implied` here. -/
def get_operand_from_opcode (c : Cpu) (opcode : OpCode) : Operand :=
  let operand_start := (c.registers.PC + 1) % 65536
  match opcode.mode with
  | AddressingMode.Unknown => Operand.Implied
  | AddressingMode.Implied => Operand.Implied
  | AddressingMode.Immediate => Operand.Immediate (read_byte c.memory operand_start)
  | AddressingMode.Relative => Operand.Immediate (read_byte c.memory operand_start)
  | AddressingMode.Accumulator => Operand.Implied
  | AddressingMode.ZeroPage => Operand.Memory (read_byte c.memory operand_start &&& 0xFF)
  | AddressingMode.ZeroPageX =>
      Operand.Memory ((c.registers.X + read_byte c.memory operand_start) &&& 0xFF)
  | AddressingMode.ZeroPageY =>
      Operand.Memory ((c.registers.Y + read_byte c.memory operand_start) &&& 0xFF)
  | AddressingMode.Absolute => Operand.Memory (read_u16 c.memory operand_start)
  | AddressingMode.AbsoluteX =>
      Operand.Memory ((c.registers.X + read_u16 c.memory operand_start) % 65536)
  | AddressingMode.AbsoluteY =>
      Operand.Memory ((c.registers.Y + read_u16 c.memory operand_start) % 65536)
  | AddressingMode.Indirect =>
      Operand.Memory (read_u16 c.memory (read_u16 c.memory operand_start))
  | AddressingMode.IndirectX =>
      Operand.Memory (read_u16 c.memory
        ((c.registers.X + read_byte c.memory ((c.registers.PC + 1) % 65536)) &&& 0xFF))
  | AddressingMode.IndirectY =>
      Operand.Memory ((c.registers.Y +
        read_u16 c.memory (read_byte c.memory ((c.registers.PC + 1) % 65536))) % 65536)

/-- `Cpu::unwrap_immediate`. -/
def unwrap_immediate (c : Cpu) : Operand → Nat
  | Operand.Immediate b => b
  | Operand.Memory addr => read_byte c.memory addr
  | Operand.Implied => 0

/-- `Cpu::unwrap_address`. -/
def unwrap_address (_c : Cpu) : Operand → Nat
  | Operand.Immediate b => b
  | Operand.Memory addr => addr
  | Operand.Implied => 0

/-- `Cpu::adc`.  Note that the source reads its value directly from
`PC + 1` and never consults the resolved operand. -/
def adc (c : Cpu) : Cpu :=
  let carry : Nat := if c.flags.carry then 1 else 0
  let value := read_byte c.memory ((c.registers.PC + 1) % 65536)
  let result0 := c.registers.A + value + carry
  let result :=
    if c.flags.decimal then
      let r1 :=
        if (c.registers.A &&& 0x0F) + (value &&& 0x0F) + carry > 0x09
        then result0 + 0x06 else result0
      if r1 > 0x99 then r1 + 0x60 else r1
    else result0
  let carryFlag : Bool :=
    if c.flags.decimal then (result &&& 0x100) == 0x100 else decide (result > 0xFF)
  { c with
    registers.A := result % 256
    flags.carry := carryFlag
    flags.zero := (result % 256) == 0
    flags.sign := (result &&& 0x80) == 0x80
    flags.overflow :=
      ((c.registers.A ^^^ result) &&& (value ^^^ result) &&& 0x80) == 0x80 }

/-- `Cpu::and`. -/
def and (c : Cpu) (operand : Operand) : Cpu :=
  let value := unwrap_immediate c operand
  let result := c.registers.A &&& value
  { c with
    registers.A := result
    flags.zero := (result % 256) == 0
    flags.sign := (result &&& 0x80) == 0x80 }

/-- `Cpu::asl`. -/
def asl (c : Cpu) (operand : Operand) : Cpu :=
  let value0 :=
    match operand with
    | Operand.Implied => c.registers.A
    | _ => unwrap_immediate c operand
  let value := (value0 <<< 1) % 256
  let c1 := { c with
    flags.carry := (value0 &&& 0x80) == 0x80
    flags.sign := (value &&& 0x80) == 0x80
    flags.zero := (value % 256) == 0 }
  match operand with
  | Operand.Implied => { c1 with registers.A := value }
  | _ => { c1 with memory := write_byte c1.memory (unwrap_address c1 operand) value }

/-- `Cpu::relative_jump` (u16 wrapping arithmetic on PC). -/
def relative_jump (c : Cpu) (offset : Nat) : Cpu :=
  if (offset &&& 0x80) == 0x80 then
    { c with registers.PC := (c.registers.PC + 65536 - (0x100 - offset)) % 65536 }
  else
    { c with registers.PC := (c.registers.PC + offset) % 65536 }

/-- `Cpu::bcc`. -/
def bcc (c : Cpu) (operand : Operand) : Cpu :=
  if !c.flags.carry then relative_jump c (unwrap_immediate c operand) else c

/-- `Cpu::bcs`. -/
def bcs (c : Cpu) (operand : Operand) : Cpu :=
  if c.flags.carry then relative_jump c (unwrap_immediate c operand) else c

/-- `Cpu::beq`. -/
def beq (c : Cpu) (operand : Operand) : Cpu :=
  if c.flags.zero then relative_jump c (unwrap_immediate c operand) else c

/-- `Cpu::bit`. -/
def bit (c : Cpu) (operand : Operand) : Cpu :=
  let value := unwrap_immediate c operand
  let result := value &&& c.registers.A
  { c with
    flags.zero := result == 0
    flags.sign := (value &&& 0x80) == 0x80
    flags.overflow := (value &&& 0x40) == 0x40 }

/-- `Cpu::bmi`. -/
def bmi (c : Cpu) (operand : Operand) : Cpu :=
  if c.flags.sign then relative_jump c (unwrap_immediate c operand) else c

/-- `Cpu::bne`. -/
def bne (c : Cpu) (operand : Operand) : Cpu :=
  if !c.flags.zero then relative_jump c (unwrap_immediate c operand) else c

/-- `Cpu::bpl`. -/
def bpl (c : Cpu) (operand : Operand) : Cpu :=
  if !c.flags.sign then relative_jump c (unwrap_immediate c operand) else c

/-- Modelled from the spec: `Stack::push` (spec section 4.5): write the
value at stack-page offset SP, then decrement SP saturating at 0.  The
`Stack` module is not among the given sources. -/
def stack_push (c : Cpu) (v : Nat) : Cpu :=
  { c with
    memory := write_byte c.memory (0x100 + c.stack.sp) v
    stack.sp := c.stack.sp - 1 }

/-- Modelled from the spec: `Stack::push_u16` (spec section 4.5): high
byte first, then low byte. -/
def stack_push_u16 (c : Cpu) (v : Nat) : Cpu :=
  stack_push (stack_push c (v / 256 % 256)) (v % 256)

/-- `Cpu::brk`: the source only pushes `PC + 1` onto the stack. -/
def brk (c : Cpu) : Cpu :=
  stack_push_u16 c ((c.registers.PC + 1) % 65536)

/-- `Cpu::lda`. -/
def lda (c : Cpu) (operand : Operand) : Cpu :=
  let value := unwrap_immediate c operand
  { c with
    registers.A := value
    flags.sign := (value &&& 0x80) == 0x80
    flags.zero := (value &&& 0xFF) == 0 }

/-- `Cpu::sta`. -/
def sta (c : Cpu) (operand : Operand) : Cpu :=
  { c with memory := write_byte c.memory (unwrap_address c operand) c.registers.A }

/-- `Cpu::set_decimal_flag`. -/
def set_decimal_flag (c : Cpu) (value : Bool) : Cpu :=
  { c with flags.decimal := value }

/-- The mnemonic dispatch of `Cpu::step` (the Rust `match` on the
descriptor's mnemonic string); `none` is the fall-through arm that makes
`step` return `UnknownOpcode`. -/
def runMnemonic (c : Cpu) (m : String) (operand : Operand) : Option Cpu :=
  if m = "ADC" then some (adc c)
  else if m = "AND" then some (and c operand)
  else if m = "ASL" then some (asl c operand)
  else if m = "BCC" then some (bcc c operand)
  else if m = "BCS" then some (bcs c operand)
  else if m = "BEQ" then some (beq c operand)
  else if m = "BIT" then some (bit c operand)
  else if m = "BMI" then some (bmi c operand)
  else if m = "BNE" then some (bne c operand)
  else if m = "BPL" then some (bpl c operand)
  else if m = "BRK" then some (brk c)
  else if m = "CLD" then some (set_decimal_flag c false)
  else if m = "LDA" then some (lda c operand)
  else if m = "SED" then some (set_decimal_flag c true)
  else if m = "STA" then some (sta c operand)
  else none

/-- `Cpu::step`: returns the final state of the (in Rust, in-place
mutated) CPU together with the optional error.  On both error paths the
source has performed no writes, so the incoming state is returned.  The
source's `byte` and `operand` let-bindings of the pure expressions
`read_byte`/`get_operand_from_opcode` are inlined at their use sites. -/
def step (c : Cpu) : Cpu × Option CpuError :=
  match from_raw_byte (read_byte c.memory c.registers.PC) with
  | some opcode =>
    match runMnemonic c opcode.mnemonic (get_operand_from_opcode c opcode) with
    | some c1 => ({ c1 with registers.PC := (c1.registers.PC + opcode.length) % 65536 }, none)
    | none => (c, some (CpuError.unknown_opcode c.registers.PC opcode.code))
  | none => (c, some (CpuError.unknown_opcode c.registers.PC
                       (read_byte c.memory c.registers.PC)))

/-- Modelled from the spec: the `ImmediateBase` of the assembler token
module (seen in the parser tests), not among the given sources. -/
inductive ImmediateBase where
  | base10
  | base16
deriving DecidableEq

/-- Modelled from the spec: the assembler `Token` variants (spec
section 4.8), whose module is not among the given sources. -/
inductive Token where
  | Label (name : String)
  | OpCode (mnemonic : String)
  | Immediate (value : String) (base : ImmediateBase)
  | ZeroPage (value : String)
  | Absolute (value : String)
  | IndirectY (value : String)
deriving DecidableEq

/-- Modelled from the spec: `Token::to_addressing_mode` -- "each token
variant maps to exactly one AddressingMode" (spec section 4.8); `Label`
and `OpCode` carry no addressing mode and map to `Unknown`. -/
def Token.to_addressing_mode : Token → AddressingMode
  | Token.Label _ => AddressingMode.Unknown
  | Token.OpCode _ => AddressingMode.Unknown
  | Token.Immediate _ _ => AddressingMode.Immediate
  | Token.ZeroPage _ => AddressingMode.ZeroPage
  | Token.Absolute _ => AddressingMode.Absolute
  | Token.IndirectY _ => AddressingMode.IndirectY

/-- The `ParserError` values of `parser.rs` (the source wraps a formatted
message string; the three constructor functions are modelled as
constructors carrying the line number). -/
inductive ParserError where
  | expected_instruction (line : Nat)
  | invalid_opcode_addressing_mode_combination (line : Nat)
  | unexpected_eol (line : Nat)
deriving DecidableEq

/-- Outcome of validating one token line; `panicked` renders the Rust
panics (`unwrap` on an exhausted iterator) in `Parser::parse` and
`Parser::handle_opcode`. -/
inductive LineResult where
  | ok
  | err (e : ParserError)
  | panicked
deriving DecidableEq

/-- Result of `Parser::parse`; `panicked` renders a Rust panic. -/
inductive PResult where
  | ok (tokens : List (List Token))
  | err (e : ParserError)
  | panicked
deriving DecidableEq

/-- `Parser::handle_opcode`: entered with the iterator positioned at the
opcode token (`toks` head).  It consumes the opcode, then calls
`unwrap` on the following peek -- a panic when no operand follows. -/
def handle_opcode (toks : List Token) (token : Token) (line : Nat) : LineResult :=
  match toks with
  | [] => LineResult.err (ParserError.unexpected_eol line)
  | _ :: rest =>
    match rest with
    | [] => LineResult.panicked
    | next :: _ =>
      let addressing_mode := next.to_addressing_mode
      match token with
      | Token.OpCode m =>
        match from_mnemonic_and_addressing_mode m addressing_mode with
        | some _ => LineResult.ok
        | none => LineResult.err (ParserError.invalid_opcode_addressing_mode_combination line)
      | _ => LineResult.err (ParserError.expected_instruction line)

/-- The per-line body of `Parser::parse`: an empty line panics
(`peek().unwrap()`); a line starting with a `Label` is checked; any
other line falls through the `_ => ()` arm unchecked. -/
def check_line (lineToks : List Token) (line : Nat) : LineResult :=
  match lineToks with
  | [] => LineResult.panicked
  | token :: rest =>
    match token with
    | Token.Label _ =>
      match rest with
      | [] => LineResult.err (ParserError.expected_instruction line)
      | next :: _ =>
        match next with
        | Token.OpCode _ => handle_opcode rest next line
        | _ => LineResult.err (ParserError.expected_instruction line)
    | _ => LineResult.ok

/-- The line loop of `Parser::parse` (the line counter starts at 0 and is
incremented before each line is examined). -/
def parse_go : List (List Token) → Nat → LineResult
  | [], _ => LineResult.ok
  | l :: ls, line =>
    match check_line l (line + 1) with
    | LineResult.ok => parse_go ls (line + 1)
    | r => r

/-- `Parser::parse`: validates all lines and returns the token stream
unchanged on success. -/
def parse (tokens : List (List Token)) : PResult :=
  match parse_go tokens 0 with
  | LineResult.ok => PResult.ok tokens
  | LineResult.err e => PResult.err e
  | LineResult.panicked => PResult.panicked

/-- The fifteen mnemonics the executor's dispatch implements (claim C9). -/
def implementedMnemonics : List String :=
  ["ADC", "AND", "ASL", "BCC", "BCS", "BEQ", "BIT", "BMI",
   "BNE", "BPL", "BRK", "CLD", "LDA", "SED", "STA"]

/-- Sign extension of an 8-bit branch offset to a 16-bit displacement,
as the spec words it: bit 7 set means subtract `0x100 - offset`
(represented mod 2^16), otherwise add the offset. -/
def sext8 (o : Nat) : Nat :=
  if (o &&& 0x80) == 0x80 then o + 65536 - 0x100 else o

/-- The six implemented branch opcodes (claim C2). -/
def branchBytes : List Nat := [0x90, 0xB0, 0xF0, 0xD0, 0x30, 0x10]

/-- The branch predicate of each branch opcode on the flag register. -/
def branchPredOf (b : Nat) (f : StatusFlags) : Bool :=
  if b = 0x90 then !f.carry
  else if b = 0xB0 then f.carry
  else if b = 0xF0 then f.zero
  else if b = 0xD0 then !f.zero
  else if b = 0x30 then f.sign
  else !f.sign

/-- The decimal-mode ADC result as claim C3 words it: `r0 = A + M + C`;
`r1 = r0 + 6` when the low-nibble sum exceeds 9; `r2 = r1 + 0x60` when
`r1 > 0x99`. -/
def bcdExpected (A M C : Nat) : Nat :=
  let r0 := A + M + C
  let r1 := if (A &&& 0x0F) + (M &&& 0x0F) + C > 9 then r0 + 6 else r0
  if r1 > 0x99 then r1 + 0x60 else r1

/-- The addressing-mode resolution table exactly as claim C5 words it,
with `op1 = read_byte(PC+1)` and `op2 = read_u16(PC+1)` (effective
addresses mod 2^16, zero-page arithmetic mod 2^8).  The `Unknown` arm is
outside the claim and is excluded by hypothesis in the theorem. -/
def resolverSpec (c : Cpu) (mode : AddressingMode) : Operand :=
  let op1 := read_byte c.memory ((c.registers.PC + 1) % 65536)
  let op2 := read_u16 c.memory ((c.registers.PC + 1) % 65536)
  match mode with
  | AddressingMode.Unknown => Operand.Implied
  | AddressingMode.Implied => Operand.Implied
  | AddressingMode.Accumulator => Operand.Implied
  | AddressingMode.Immediate => Operand.Immediate op1
  | AddressingMode.Relative => Operand.Immediate op1
  | AddressingMode.ZeroPage => Operand.Memory op1
  | AddressingMode.ZeroPageX => Operand.Memory ((op1 + c.registers.X) % 256)
  | AddressingMode.ZeroPageY => Operand.Memory ((op1 + c.registers.Y) % 256)
  | AddressingMode.Absolute => Operand.Memory op2
  | AddressingMode.AbsoluteX => Operand.Memory ((op2 + c.registers.X) % 65536)
  | AddressingMode.AbsoluteY => Operand.Memory ((op2 + c.registers.Y) % 65536)
  | AddressingMode.Indirect => Operand.Memory (read_u16 c.memory op2)
  | AddressingMode.IndirectX => Operand.Memory (read_u16 c.memory ((op1 + c.registers.X) % 256))
  | AddressingMode.IndirectY => Operand.Memory ((read_u16 c.memory op1 + c.registers.Y) % 65536)

/-! ## Helper lemmas -/

theorem and_256_dichotomy (n : Nat) : n &&& 0x100 = 0 ∨ n &&& 0x100 = 0x100 := by
  have h := Nat.and_two_pow n 8
  norm_num at h
  rw [h]
  cases n.testBit 8 <;> simp

theorem and_255_eq_mod (n : Nat) : n &&& 0xFF = n % 256 := by
  have h := Nat.and_pow_two_sub_one_eq_mod n 8
  norm_num at h
  exact h

theorem read_byte_lt (m : Mem) (addr : Nat) : read_byte m addr < 256 :=
  Nat.mod_lt _ (by norm_num)

theorem writeCode_unwritten (code : List Nat) (m : Mem) (a q : Nat)
    (h : ∀ j, j < code.length → (a + j) % 65536 ≠ q) :
    writeCode m a code q = m q := by
  induction code generalizing m a with
  | nil => rfl
  | cons b bs ih =>
    show writeCode (write_byte m a b) (a + 1) bs q = m q
    rw [ih]
    · have h0 := h 0 (by simp)
      simp only [Nat.add_zero] at h0
      unfold write_byte
      rw [if_neg (fun hq => h0 hq.symm)]
    · intro j hj
      have := h (j + 1) (by simp; omega)
      have harr : a + (j + 1) = a + 1 + j := by omega
      rw [harr] at this
      exact this

theorem writeCode_get (code : List Nat) (m : Mem) (a : Nat) (hlen : code.length ≤ 65536) :
    ∀ i (h : i < code.length),
      writeCode m a code ((a + i) % 65536) = code.get ⟨i, h⟩ % 256 := by
  induction code generalizing m a with
  | nil => intro i h; exact absurd h (by simp)
  | cons b bs ih =>
    intro i h
    match i with
    | 0 =>
      show writeCode (write_byte m a b) (a + 1) bs ((a + 0) % 65536) = b % 256
      rw [writeCode_unwritten]
      · unfold write_byte
        rw [if_pos (by omega)]
      · intro j hj
        simp only [List.length_cons] at hlen
        omega
    | Nat.succ i' =>
      show writeCode (write_byte m a b) (a + 1) bs ((a + (i' + 1)) % 65536) = _
      have harr : a + (i' + 1) = a + 1 + i' := by omega
      rw [harr]
      have hlen' : bs.length ≤ 65536 := by simp at hlen; omega
      have h' : i' < bs.length := by simp at h; omega
      exact ih (write_byte m a b) (a + 1) hlen' i' h'

theorem runMnemonic_eq_none_iff (c : Cpu) (m : String) (op : Operand) :
    runMnemonic c m op = none ↔ m ∉ implementedMnemonics := by
  constructor
  · intro hnone hm
    fin_cases hm <;> exact Option.noConfusion hnone
  · intro h
    unfold runMnemonic
    repeat rw [if_neg (fun he => h (by rw [he]; decide))]

set_option maxRecDepth 4096 in
theorem from_raw_byte_code (b : Nat) (d : OpCode) (hb : b < 256)
    (hd : from_raw_byte b = some d) : d.code = b := by
  have h : ∀ x, x < 256 → (match from_raw_byte x with
      | some o => o.code == x
      | none => true) = true := by decide
  have h2 := h b hb
  rw [hd] at h2
  simpa using h2

theorem step_ok_of_lookup (c : Cpu) (d : OpCode) (c1 : Cpu)
    (hfb : from_raw_byte (read_byte c.memory c.registers.PC) = some d)
    (hrm : runMnemonic c d.mnemonic (get_operand_from_opcode c d) = some c1) :
    step c = ({ c1 with registers.PC := (c1.registers.PC + d.length) % 65536 }, none) := by
  unfold step
  rw [hfb]
  show (match runMnemonic c d.mnemonic (get_operand_from_opcode c d) with
        | some c1 => ({ c1 with registers.PC := (c1.registers.PC + d.length) % 65536 },
                      (none : Option CpuError))
        | none => (c, some (CpuError.unknown_opcode c.registers.PC d.code))) = _
  rw [hrm]

theorem step_err_of_unimplemented (c : Cpu) (d : OpCode)
    (hfb : from_raw_byte (read_byte c.memory c.registers.PC) = some d)
    (hrm : runMnemonic c d.mnemonic (get_operand_from_opcode c d) = none) :
    step c = (c, some (CpuError.unknown_opcode c.registers.PC d.code)) := by
  unfold step
  rw [hfb]
  show (match runMnemonic c d.mnemonic (get_operand_from_opcode c d) with
        | some c1 => ({ c1 with registers.PC := (c1.registers.PC + d.length) % 65536 },
                      (none : Option CpuError))
        | none => (c, some (CpuError.unknown_opcode c.registers.PC d.code))) = _
  rw [hrm]

theorem step_err_of_lookup_none (c : Cpu)
    (hfb : from_raw_byte (read_byte c.memory c.registers.PC) = none) :
    step c = (c, some (CpuError.unknown_opcode c.registers.PC
                        (read_byte c.memory c.registers.PC))) := by
  unfold step
  rw [hfb]

theorem relative_jump_pc (c : Cpu) (o : Nat) (ho : o < 256) :
    ((relative_jump c o).registers.PC + 2) % 65536 =
      (c.registers.PC + 2 + sext8 o) % 65536 := by
  unfold relative_jump sext8
  split_ifs with hbit <;> simp only <;> omega

theorem branch_pc (c : Cpu) (p : Bool) (o : Nat) (ho : o < 256) :
    ((if p then relative_jump c o else c).registers.PC + 2) % 65536 =
      if p then (c.registers.PC + 2 + sext8 o) % 65536
      else (c.registers.PC + 2) % 65536 := by
  cases p
  · simp
  · simpa using relative_jump_pc c o ho

theorem beq_256_eq_decide_ne (n : Nat) :
    ((n &&& 0x100) == 0x100) = decide ((n &&& 0x100) ≠ 0) := by
  rcases and_256_dichotomy n with h | h <;> rw [h] <;> decide

/-! ## Claim theorems -/

/-- C5: for every CPU state and opcode descriptor, the addressing-mode
resolver produces exactly the operands of the claim's table: `Implied`
for Implied/Accumulator; `Immediate(op1)` for Immediate/Relative;
`Memory(op1)` for ZeroPage; `Memory((op1+X) mod 256)` /
`Memory((op1+Y) mod 256)` for ZeroPageX/Y; `Memory(op2)` for Absolute;
`Memory((op2+X) mod 2^16)` / `Memory((op2+Y) mod 2^16)` for
AbsoluteX/Y; `Memory(read_u16(op2))` for Indirect;
`Memory(read_u16((op1+X) mod 256))` for IndirectX; and
`Memory((read_u16(op1)+Y) mod 2^16)` for IndirectY. -/
theorem c5_resolver (c : Cpu) (op : OpCode)
    (hm : op.mode ≠ AddressingMode.Unknown) :
    get_operand_from_opcode c op = resolverSpec c op.mode := by
  have hrb := read_byte_lt c.memory ((c.registers.PC + 1) % 65536)
  cases hmode : op.mode
  case Unknown => exact absurd hmode hm
  case Implied => simp only [get_operand_from_opcode, resolverSpec, hmode]
  case Accumulator => simp only [get_operand_from_opcode, resolverSpec, hmode]
  case Immediate => simp only [get_operand_from_opcode, resolverSpec, hmode]
  case Relative => simp only [get_operand_from_opcode, resolverSpec, hmode]
  case Absolute => simp only [get_operand_from_opcode, resolverSpec, hmode]
  case Indirect => simp only [get_operand_from_opcode, resolverSpec, hmode]
  case ZeroPage =>
    simp only [get_operand_from_opcode, resolverSpec, hmode]
    rw [and_255_eq_mod]
    congr 1
    omega
  case ZeroPageX =>
    simp only [get_operand_from_opcode, resolverSpec, hmode]
    rw [and_255_eq_mod]
    congr 1
    omega
  case ZeroPageY =>
    simp only [get_operand_from_opcode, resolverSpec, hmode]
    rw [and_255_eq_mod]
    congr 1
    omega
  case AbsoluteX =>
    simp only [get_operand_from_opcode, resolverSpec, hmode]
    congr 1
    omega
  case AbsoluteY =>
    simp only [get_operand_from_opcode, resolverSpec, hmode]
    congr 1
    omega
  case IndirectX =>
    simp only [get_operand_from_opcode, resolverSpec, hmode]
    rw [and_255_eq_mod]
    congr 2
    omega
  case IndirectY =>
    simp only [get_operand_from_opcode, resolverSpec, hmode]
    congr 1
    omega

/-- Witness for C5 at a concrete state and descriptor. -/
theorem c5_resolver_witness :
    get_operand_from_opcode Cpu.new ⟨0x69, "ADC", AddressingMode.Immediate, 2⟩ =
      resolverSpec Cpu.new AddressingMode.Immediate :=
  c5_resolver Cpu.new ⟨0x69, "ADC", AddressingMode.Immediate, 2⟩ (by decide)

/-- C2: for every CPU state and implemented branch opcode, a completed
step leaves PC at `PC_before + length + sext8(offset)` (mod 2^16) when
the branch predicate holds, and at `PC_before + length` (mod 2^16, the
spec's global PC invariant) otherwise; the branch length is 2. -/
theorem c2_branch_pc (c : Cpu) (b : Nat) (hb : b ∈ branchBytes)
    (hop : read_byte c.memory c.registers.PC = b) :
    (step c).1.registers.PC =
      if branchPredOf b c.flags
      then (c.registers.PC + 2 +
            sext8 (read_byte c.memory ((c.registers.PC + 1) % 65536))) % 65536
      else (c.registers.PC + 2) % 65536 := by
  simp only [branchBytes, List.mem_cons, List.not_mem_nil, or_false] at hb
  rcases hb with rfl | rfl | rfl | rfl | rfl | rfl
  · have hfb : from_raw_byte (read_byte c.memory c.registers.PC) =
        some ⟨0x90, "BCC", AddressingMode.Relative, 2⟩ := by rw [hop]; decide
    rw [step_ok_of_lookup c ⟨0x90, "BCC", AddressingMode.Relative, 2⟩ _ hfb rfl]
    exact branch_pc c (!c.flags.carry)
      (read_byte c.memory ((c.registers.PC + 1) % 65536)) (read_byte_lt _ _)
  · have hfb : from_raw_byte (read_byte c.memory c.registers.PC) =
        some ⟨0xB0, "BCS", AddressingMode.Relative, 2⟩ := by rw [hop]; decide
    rw [step_ok_of_lookup c ⟨0xB0, "BCS", AddressingMode.Relative, 2⟩ _ hfb rfl]
    exact branch_pc c c.flags.carry
      (read_byte c.memory ((c.registers.PC + 1) % 65536)) (read_byte_lt _ _)
  · have hfb : from_raw_byte (read_byte c.memory c.registers.PC) =
        some ⟨0xF0, "BEQ", AddressingMode.Relative, 2⟩ := by rw [hop]; decide
    rw [step_ok_of_lookup c ⟨0xF0, "BEQ", AddressingMode.Relative, 2⟩ _ hfb rfl]
    exact branch_pc c c.flags.zero
      (read_byte c.memory ((c.registers.PC + 1) % 65536)) (read_byte_lt _ _)
  · have hfb : from_raw_byte (read_byte c.memory c.registers.PC) =
        some ⟨0xD0, "BNE", AddressingMode.Relative, 2⟩ := by rw [hop]; decide
    rw [step_ok_of_lookup c ⟨0xD0, "BNE", AddressingMode.Relative, 2⟩ _ hfb rfl]
    exact branch_pc c (!c.flags.zero)
      (read_byte c.memory ((c.registers.PC + 1) % 65536)) (read_byte_lt _ _)
  · have hfb : from_raw_byte (read_byte c.memory c.registers.PC) =
        some ⟨0x30, "BMI", AddressingMode.Relative, 2⟩ := by rw [hop]; decide
    rw [step_ok_of_lookup c ⟨0x30, "BMI", AddressingMode.Relative, 2⟩ _ hfb rfl]
    exact branch_pc c c.flags.sign
      (read_byte c.memory ((c.registers.PC + 1) % 65536)) (read_byte_lt _ _)
  · have hfb : from_raw_byte (read_byte c.memory c.registers.PC) =
        some ⟨0x10, "BPL", AddressingMode.Relative, 2⟩ := by rw [hop]; decide
    rw [step_ok_of_lookup c ⟨0x10, "BPL", AddressingMode.Relative, 2⟩ _ hfb rfl]
    exact branch_pc c (!c.flags.sign)
      (read_byte c.memory ((c.registers.PC + 1) % 65536)) (read_byte_lt _ _)

/-- A concrete state for the C2 witness: BCC +3 at 0xC000, carry clear. -/
def bccCpu : Cpu :=
  { Cpu.new with
    memory := fun a => if a = 0xC000 then 0x90 else if a = 0xC001 then 0x03 else 0
    registers.PC := 0xC000 }

/-- Witness for C2: a taken BCC with offset 3 lands at 0xC005. -/
theorem c2_branch_pc_witness : (step bccCpu).1.registers.PC = 0xC005 := by
  have h := c2_branch_pc bccCpu 0x90 (by decide) (by decide)
  rw [h]
  decide

/-- C3: for every CPU state with the decimal flag set and an
Immediate-mode ADC (opcode 0x69) at PC, with `M` the immediate byte and
`C` the incoming carry bit: letting `r2` be the BCD-adjusted sum of the
claim (`bcdExpected`), afterwards the carry flag equals
`(r2 & 0x100) != 0` and A equals `r2 mod 256`. -/
theorem c3_decimal_adc (c : Cpu)
    (hd : c.flags.decimal = true)
    (hop : read_byte c.memory c.registers.PC = 0x69) :
    (step c).1.flags.carry =
      decide ((bcdExpected c.registers.A
        (read_byte c.memory ((c.registers.PC + 1) % 65536))
        (if c.flags.carry then 1 else 0)) &&& 0x100 ≠ 0) ∧
    (step c).1.registers.A =
      (bcdExpected c.registers.A
        (read_byte c.memory ((c.registers.PC + 1) % 65536))
        (if c.flags.carry then 1 else 0)) % 256 := by
  have hfb : from_raw_byte (read_byte c.memory c.registers.PC) =
      some ⟨0x69, "ADC", AddressingMode.Immediate, 2⟩ := by rw [hop]; decide
  rw [step_ok_of_lookup c ⟨0x69, "ADC", AddressingMode.Immediate, 2⟩ (adc c) hfb rfl]
  simp only [adc, bcdExpected, hd, if_true]
  rw [beq_256_eq_decide_ne]
  exact ⟨rfl, trivial⟩

/-- A concrete state for the C3 witness: SED-state ADC #$10 with
A = 0x95, matching the repo's BCD carry test. -/
def bcdCpu : Cpu :=
  { Cpu.new with
    memory := fun a => if a = 0xC000 then 0x69 else if a = 0xC001 then 0x10 else 0
    registers := { A := 0x95, X := 0, Y := 0, PC := 0xC000 }
    flags.decimal := true }

/-- Witness for C3: 0x95 + 0x10 in decimal mode gives A = 0x05 with
carry set. -/
theorem c3_decimal_adc_witness :
    (step bcdCpu).1.flags.carry = true ∧ (step bcdCpu).1.registers.A = 0x05 := by
  have h := c3_decimal_adc bcdCpu rfl (by decide)
  refine ⟨?_, ?_⟩
  · rw [h.1]; decide
  · rw [h.2]; decide

/-- A concrete state exercising a memory-mode ADC: opcode 0x65
(ADC ZeroPage) with operand byte 0x10, memory[0x0010] = 0x05, A = 0,
carry and decimal clear. -/
def zpAdcCpu : Cpu :=
  { Cpu.new with
    memory := fun a =>
      if a = 0xC000 then 0x65 else if a = 0xC001 then 0x10 else
      if a = 0x10 then 0x05 else 0
    registers.PC := 0xC000 }

/-- C1 (failing evaluation): the resolver maps the ZeroPage ADC to
`Memory 0x0010`, whose byte is 0x05, yet after the step A holds 0x10 --
the operand byte at PC+1 -- because `Cpu::adc` reads `PC + 1` directly
and ignores the resolved operand.  The claim's value
`(A + M + C) mod 256 = 0x05` differs. -/
theorem c1_adc_ignores_operand :
    get_operand_from_opcode zpAdcCpu ⟨0x65, "ADC", AddressingMode.ZeroPage, 2⟩ =
      Operand.Memory 0x10 ∧
    read_byte zpAdcCpu.memory 0x10 = 0x05 ∧
    (step zpAdcCpu).2 = none ∧
    (step zpAdcCpu).1.registers.A = 0x10 ∧
    (0 + 0x05 + 0) % 256 ≠ 0x10 := by
  refine ⟨by decide, by decide, ?_, ?_, by decide⟩
  · rw [step_ok_of_lookup zpAdcCpu ⟨0x65, "ADC", AddressingMode.ZeroPage, 2⟩
        (adc zpAdcCpu) (by decide) rfl]
  · rw [step_ok_of_lookup zpAdcCpu ⟨0x65, "ADC", AddressingMode.ZeroPage, 2⟩
        (adc zpAdcCpu) (by decide) rfl]
    decide

/-- A concrete state with BRK (opcode 0x00) at PC = 0xC000: memory is
all zero, SP = 0xFF, all flags clear. -/
def brkCpu : Cpu :=
  { Cpu.new with registers.PC := 0xC000 }

/-- C4 (failing evaluation): executing BRK pushes only PC+1 = 0xC001
(high byte 0xC0 at 0x01FF, low byte 0x01 at 0x01FE -- the claim says the
low byte of PC+2, namely 0x02), pushes no flags (SP ends at 0xFD after
two pushes, not three), leaves the interrupt-disable flag clear, and
leaves PC at 0xC001 instead of the vector read_u16(0xFFFE) = 0. -/
theorem c4_brk_incomplete :
    (step brkCpu).2 = none ∧
    (step brkCpu).1.memory 0x1FF = 0xC0 ∧
    (step brkCpu).1.memory 0x1FE = 0x01 ∧
    (step brkCpu).1.stack.sp = 0xFD ∧
    (step brkCpu).1.flags.interrupt_disabled = false ∧
    (step brkCpu).1.registers.PC = 0xC001 ∧
    read_u16 brkCpu.memory 0xFFFE = 0 ∧
    (0xC001 : Nat) ≠ 0 := by
  have hs := step_ok_of_lookup brkCpu ⟨0x00, "BRK", AddressingMode.Implied, 1⟩
    (brk brkCpu) (by decide) rfl
  rw [hs]
  refine ⟨rfl, by decide, by decide, by decide, by decide, by decide, by decide, by decide⟩

/-- A concrete state with the legal but unimplemented JMP opcode 0x4C
at PC. -/
def jmpCpu : Cpu :=
  { Cpu.new with
    memory := fun a => if a = 0xC000 then 0x4C else 0
    registers.PC := 0xC000 }

/-- Counterexample to C6 as stated: the table lookup of the byte at PC
succeeds (0x4C is the legal JMP Absolute opcode), yet `step` returns
`UnknownOpcode` -- so errors are not returned exactly when the lookup
fails. -/
theorem c6_counterexample :
    from_raw_byte (read_byte jmpCpu.memory jmpCpu.registers.PC) ≠ none ∧
    (step jmpCpu).2 = some (CpuError.unknown_opcode 0xC000 0x4C) := by
  constructor
  · decide
  · rw [step_err_of_unimplemented jmpCpu ⟨0x4C, "JMP", AddressingMode.Absolute, 3⟩
        (by decide) rfl]
    rfl

/-- C6 (amended): `step` returns an error exactly when the table lookup
of the byte at PC fails or the descriptor's mnemonic is not one of the
fifteen implemented mnemonics; any returned error is
`UnknownOpcode(pc, byte at pc)`, and on error PC and all other CPU
state (registers, flags, memory, stack) are unchanged. -/
theorem c6_amended (c : Cpu) :
    (∀ e, (step c).2 = some e →
      e = CpuError.unknown_opcode c.registers.PC (read_byte c.memory c.registers.PC) ∧
      (step c).1 = c) ∧
    ((step c).2 ≠ none ↔
      (from_raw_byte (read_byte c.memory c.registers.PC) = none ∨
       ∃ d, from_raw_byte (read_byte c.memory c.registers.PC) = some d ∧
            d.mnemonic ∉ implementedMnemonics)) := by
  have hblt : read_byte c.memory c.registers.PC < 256 := read_byte_lt _ _
  rcases hfb : from_raw_byte (read_byte c.memory c.registers.PC) with _ | d
  · rw [step_err_of_lookup_none c hfb]
    refine ⟨?_, ?_⟩
    · intro e he
      simp only [Option.some_inj] at he
      exact ⟨he.symm, rfl⟩
    · simp
  · have hcode := from_raw_byte_code _ d hblt hfb
    rcases hrm : runMnemonic c d.mnemonic (get_operand_from_opcode c d) with _ | c1
    · have hnm : d.mnemonic ∉ implementedMnemonics :=
        (runMnemonic_eq_none_iff c d.mnemonic (get_operand_from_opcode c d)).mp hrm
      rw [step_err_of_unimplemented c d hfb hrm]
      refine ⟨?_, ?_⟩
      · intro e he
        simp only [Option.some_inj] at he
        rw [← he, hcode]
        exact ⟨rfl, rfl⟩
      · simp only [ne_eq, reduceCtorEq, not_false_eq_true, true_iff]
        exact Or.inr ⟨d, rfl, hnm⟩
    · rw [step_ok_of_lookup c d c1 hfb hrm]
      refine ⟨?_, ?_⟩
      · intro e he
        exact absurd he (by simp)
      · simp only [ne_eq, not_true_eq_false, false_iff, not_or]
        refine ⟨by simp [hfb], ?_⟩
        rintro ⟨d', hd', hnm'⟩
        have hdd : d = d' := by injection hd'
        rw [← hdd] at hnm'
        have hnone := (runMnemonic_eq_none_iff c d.mnemonic (get_operand_from_opcode c d)).mpr hnm'
        rw [hnone] at hrm
        exact Option.noConfusion hrm

/-- A concrete state with the legal but unimplemented TAX opcode 0xAA
at PC, for the C6 witness. -/
def taxCpu : Cpu :=
  { Cpu.new with
    memory := fun a => if a = 0xC000 then 0xAA else 0
    registers.PC := 0xC000 }

/-- Witness for C6 (amended) at a concrete state: a legal descriptor
with an unimplemented mnemonic makes `step` error. -/
theorem c6_amended_witness : (step taxCpu).2 ≠ none := by
  exact (c6_amended taxCpu).2.mpr
    (Or.inr ⟨⟨0xAA, "TAX", AddressingMode.Implied, 1⟩, by decide, by decide⟩)

/-- C9: for every CPU state whose PC byte looks up to a descriptor with
a mnemonic outside the fifteen implemented ones, `step` returns
`UnknownOpcode(PC, descriptor.code)` and leaves the whole CPU state
(registers, flags, memory, stack) unchanged. -/
theorem c9_unimplemented_mnemonics (c : Cpu) (d : OpCode)
    (hd : from_raw_byte (read_byte c.memory c.registers.PC) = some d)
    (hm : d.mnemonic ∉ implementedMnemonics) :
    (step c).2 = some (CpuError.unknown_opcode c.registers.PC d.code) ∧
    (step c).1 = c := by
  have hrm : runMnemonic c d.mnemonic (get_operand_from_opcode c d) = none :=
    (runMnemonic_eq_none_iff c d.mnemonic (get_operand_from_opcode c d)).mpr hm
  rw [step_err_of_unimplemented c d hd hrm]
  exact ⟨rfl, rfl⟩

/-- A concrete state with the legal but unimplemented NOP opcode 0xEA
at PC, for the C9 witness. -/
def nopCpu : Cpu :=
  { Cpu.new with
    memory := fun a => if a = 0xC000 then 0xEA else 0
    registers.PC := 0xC000 }

/-- Witness for C9 at a concrete state: NOP (0xEA) errors and leaves the
state unchanged. -/
theorem c9_unimplemented_mnemonics_witness :
    (step nopCpu).2 = some (CpuError.unknown_opcode 0xC000 0xEA) ∧
    (step nopCpu).1 = nopCpu := by
  have h := c9_unimplemented_mnemonics nopCpu ⟨0xEA, "NOP", AddressingMode.Implied, 1⟩
    (by decide) (by decide)
  exact h

/-- Counterexample to C7 as stated: loading four bytes at 0xFFFC has
`addr + code.len() = 0x10000`, which is not `> 0x10000`, so the claim
says the load succeeds -- but the code errors (its check is
`addr + len > 0xFFFF`). -/
theorem c7_counterexample :
    load Cpu.new [0x0A, 0x0B, 0x0C, 0x0D] (some 0xFFFC) =
      Except.error (CpuError.code_segment_out_of_range 0xFFFC) ∧
    ¬(0xFFFC + 4 > 0x10000) := by
  exact ⟨rfl, by decide⟩

/-- C7 (amended): with an explicit address, `load` fails with
`CodeSegmentOutOfRange(addr)` exactly when `addr + code.len() > 0xFFFF`;
otherwise it writes the code bytes at `addr`, sets PC to `addr`, and
returns Ok.  With no explicit address `load` never fails (the bound
check is not applied on the default-address path). -/
theorem c7_amended (c : Cpu) (code : List Nat) (a : Nat) :
    (a + code.length > 0xFFFF →
      load c code (some a) = Except.error (CpuError.code_segment_out_of_range a)) ∧
    (a + code.length ≤ 0xFFFF →
      ∃ c', load c code (some a) = Except.ok c' ∧ c'.registers.PC = a ∧
        ∀ i, ∀ h : i < code.length,
          read_byte c'.memory (a + i) = code.get ⟨i, h⟩ % 256) ∧
    (∀ e, load c code none ≠ Except.error e) := by
  refine ⟨?_, ?_, ?_⟩
  · intro hgt
    simp only [load]
    rw [if_pos hgt]
  · intro hle
    simp only [load]
    rw [if_neg (by omega)]
    refine ⟨_, rfl, rfl, ?_⟩
    intro i h
    show writeCode c.memory a code ((a + i) % 65536) % 256 = _
    rw [writeCode_get code c.memory a (by omega) i h]
    omega
  · intro e
    simp only [load]
    exact fun hcon => Except.noConfusion hcon

/-- Witness for C7 (amended) at concrete inputs: one byte at 0xFFFE
loads successfully (the boundary case `addr + len = 0xFFFF`), while two
bytes at 0xFFFE make the load fail. -/
theorem c7_amended_witness :
    load Cpu.new [0x0A] (some 0xFFFE) ≠
      Except.error (CpuError.code_segment_out_of_range 0xFFFE) ∧
    load Cpu.new [0x0A, 0x0B] (some 0xFFFE) =
      Except.error (CpuError.code_segment_out_of_range 0xFFFE) := by
  have h3 := (c7_amended Cpu.new [0x0A, 0x0B] 0xFFFE).1 (by decide)
  refine ⟨?_, h3⟩
  obtain ⟨c', hok, _, _⟩ := (c7_amended Cpu.new [0x0A] 0xFFFE).2.1 (by decide)
  rw [hok]
  exact fun hcon => Except.noConfusion hcon

/-- C10: `load` with no explicit address never returns
`CodeSegmentOutOfRange`: it always succeeds, writes byte `i` of the code
at address `(0xC000 + i) mod 2^16`, and sets PC to 0xC000.  (The per-byte
description is stated for slices of at most 2^16 bytes, where the
address map is injective; a byte is its own value mod 256 by the `u8`
slice type.) -/
theorem c10_load_none (c : Cpu) (code : List Nat) :
    ∃ c', load c code none = Except.ok c' ∧ c'.registers.PC = 0xC000 ∧
      (code.length ≤ 65536 →
        ∀ i, ∀ h : i < code.length,
          read_byte c'.memory (0xC000 + i) = code.get ⟨i, h⟩ % 256) := by
  refine ⟨_, rfl, rfl, ?_⟩
  intro hlen i h
  show writeCode c.memory 0xC000 code ((0xC000 + i) % 65536) % 256 = _
  rw [writeCode_get code c.memory 0xC000 hlen i h]
  omega

/-- Witness for C10 at a concrete input: a five-byte slice whose end
would lie past 0xFFFF when loaded at 0xFFFE explicitly, loaded with no
explicit address: it succeeds and lands at 0xC000. -/
theorem c10_load_none_witness :
    ∃ c', load Cpu.new [0x0A, 0x0B, 0x0C, 0x0D, 0x0E] none = Except.ok c' ∧
      c'.registers.PC = 0xC000 ∧ read_byte c'.memory 0xC004 = 0x0E := by
  obtain ⟨c', hok, hpc, hmem⟩ := c10_load_none Cpu.new [0x0A, 0x0B, 0x0C, 0x0D, 0x0E]
  refine ⟨c', hok, hpc, ?_⟩
  have := hmem (by decide) 4 (by decide)
  simpa using this

/-- C8 (failing evaluation): the parser accepts a line whose first token
is not a label and not an `OpCode` (the claim requires
`ExpectedInstruction(1)`), and it panics (`peek().unwrap()`) on a
label-plus-opcode line with no operand (the claim requires the line to
be validated as Implied/Accumulator mode -- `BRK` with Implied mode is a
legal table pair, so the line should be accepted). -/
theorem c8_code_eval :
    parse [[Token.Immediate ("10") ImmediateBase.base16]] =
      PResult.ok [[Token.Immediate ("10") ImmediateBase.base16]] ∧
    parse [[Token.Label ("MAIN"), Token.OpCode ("BRK")]] = PResult.panicked ∧
    from_mnemonic_and_addressing_mode ("BRK") AddressingMode.Implied ≠ none := by
  refine ⟨by decide, by decide, by decide⟩

end RS6502
